import Mathlib

/-!
Verification development for the cosmoslide markdown-to-PDF editor engine
(`packages/editor`): the page-delimiter splitter, per-page markdown
rendering, the print/preview stylesheet generator, the preview scale
script, and the `usePdfExport` export pipeline.

JavaScript numbers are embedded as `ℚ` (all arithmetic the claims touch is
exact), strings as Lean `String` / `List Char`, and the DOM/async
environment of the export hook as an explicit record.
-/

/-- The `PageSize` from `types/index.ts`: width, height, margin in millimeters. -/
structure PageSize where
  width : ℚ
  height : ℚ
  margin : ℚ
deriving DecidableEq, Repr

/-- The validity condition the spec places on `PageSize`:
positive dimensions, nonnegative margin, `margin*2 < min(width, height)`. -/
def PageSize.valid (ps : PageSize) : Prop :=
  0 < ps.width ∧ 0 < ps.height ∧ 0 ≤ ps.margin ∧
    ps.margin * 2 < min ps.width ps.height

instance (ps : PageSize) : Decidable ps.valid := by
  unfold PageSize.valid; infer_instance

/-! ## Stylesheet generator (`utils/printStyles.ts`, `generatePrintStyles`)

The generator emits a CSS string; the dimension declarations of each
`.page` rule set are transcribed here as a record.  The global rule
`*, *::before, *::after { box-sizing: border-box }` means a declared
`width`/`height` is the border box (outer box), and the content box is the
declared size minus twice the padding. -/

/-- The dimension declarations of one `.page` CSS rule set.
`none` means the property is not declared in that rule set. -/
structure PageRuleBox where
  width : Option ℚ
  height : Option ℚ
  minHeight : Option ℚ
  maxHeight : Option ℚ
  padding : ℚ
deriving DecidableEq, Repr

/-- The `generatePrintStyles`: `contentWidth = width - margin * 2`. -/
def contentWidth (ps : PageSize) : ℚ := ps.width - ps.margin * 2

/-- The `generatePrintStyles`: `contentHeight = height - margin * 2`. -/
def contentHeight (ps : PageSize) : ℚ := ps.height - ps.margin * 2

/-- The base `.page` rule of `generatePrintStyles` (outside any `@media`):
`width: ${contentWidth}mm; min-height: ${contentHeight}mm;
padding: ${margin}mm` — no `height` or `max-height` declaration. -/
def basePageRule (ps : PageSize) : PageRuleBox :=
  { width := some (contentWidth ps)
    height := none
    minHeight := some (contentHeight ps)
    maxHeight := none
    padding := ps.margin }

/-- The `@media print` `.page` rule of `generatePrintStyles`:
`width: ${width}mm; height: ${height}mm; min-height: ${height}mm;
max-height: ${height}mm; padding: ${margin}mm`. -/
def printPageRule (ps : PageSize) : PageRuleBox :=
  { width := some ps.width
    height := some ps.height
    minHeight := some ps.height
    maxHeight := some ps.height
    padding := ps.margin }

/-- The `@media screen` `.page` rule of `generatePrintStyles`:
`width: ${width}mm; height: ${height}mm; min-height: ${height}mm;
padding: ${margin}mm`. -/
def screenPageRule (ps : PageSize) : PageRuleBox :=
  { width := some ps.width
    height := some ps.height
    minHeight := some ps.height
    maxHeight := none
    padding := ps.margin }

/-- Outer (border-box) width of a rule set under the global
`box-sizing: border-box`: the declared `width` itself. -/
def PageRuleBox.outerWidth (r : PageRuleBox) : Option ℚ := r.width

/-- Outer (border-box) height under `box-sizing: border-box`. -/
def PageRuleBox.outerHeight (r : PageRuleBox) : Option ℚ := r.height

/-- Content-box width under `box-sizing: border-box`:
declared width minus twice the padding. -/
def PageRuleBox.contentBoxWidth (r : PageRuleBox) : Option ℚ :=
  r.width.map (fun w => w - 2 * r.padding)

/-- Content-box height under `box-sizing: border-box`. -/
def PageRuleBox.contentBoxHeight (r : PageRuleBox) : Option ℚ :=
  r.height.map (fun h => h - 2 * r.padding)

/-! ## Preview scale script (`generateIframeDocument`)

The embedded script computes
`scale = Math.min((window.innerWidth - 40) / (PAGE_WIDTH_MM * MM_TO_PX), 1)`
with `MM_TO_PX = 3.7795275591`. -/

/-- The `MM_TO_PX = 3.7795275591` (96 DPI), exactly as the decimal literal. -/
def MM_TO_PX : ℚ := 37795275591 / 10000000000

/-- The preview scale computed by the embedded script in
`generateIframeDocument`, as a function of the configured page width (mm)
and `window.innerWidth` (px). -/
def previewScale (pageWidthMm innerWidth : ℚ) : ℚ :=
  min ((innerWidth - 40) / (pageWidthMm * MM_TO_PX)) 1

/-! ## Page-delimiter splitter (`utils/markdownParser.ts`)

`PAGE_DELIMITER_REGEX = /(?:^---page---$|\f)/gm`: a match is either the
token `---page---` standing alone on a line (`^`/`$` in multiline mode
match at the string boundaries and around JavaScript line terminators) or
a form-feed character anywhere.  `splitByPageDelimiters` normalizes CRLF
to LF, splits on the regex, keeps the first segment unconditionally and
every later segment only if its `trim()` is nonempty, and falls back to
`['']` if the filter left nothing. -/

/-- JavaScript `LineTerminator` characters (LF, CR, LS, PS), the positions
around which `^`/`$` match in multiline regex mode. -/
def isLineTerm (c : Char) : Bool :=
  c = '\n' || c = '\r' || c.toNat = 0x2028 || c.toNat = 0x2029

/-- Whitespace recognized by JavaScript `String.prototype.trim`. -/
def isJsWs (c : Char) : Bool :=
  c.toNat = 9 || c.toNat = 10 || c.toNat = 11 || c.toNat = 12 ||
  c.toNat = 13 || c.toNat = 32 || c.toNat = 160 || c.toNat = 0x1680 ||
  (0x2000 ≤ c.toNat && c.toNat ≤ 0x200A) || c.toNat = 0x2028 ||
  c.toNat = 0x2029 || c.toNat = 0x202F || c.toNat = 0x205F ||
  c.toNat = 0x3000 || c.toNat = 0xFEFF

/-- The `String.prototype.trim` on a character list. -/
def jsTrim (l : List Char) : List Char :=
  ((l.dropWhile isJsWs).reverse.dropWhile isJsWs).reverse

/-- The `trim()` on strings. -/
def jsTrimString (s : String) : String := String.mk (jsTrim s.toList)

/-- The `markdown.replace(/\r\n/g, '\n')`: CRLF-to-LF normalization. -/
def normalizeNewlines : List Char → List Char
  | [] => []
  | '\r' :: '\n' :: rest => '\n' :: normalizeNewlines rest
  | c :: rest => c :: normalizeNewlines rest

/-- The page-break token `---page---` of `PAGE_DELIMITER_REGEX`. -/
def pageToken : List Char := "---page---".toList

/-- Strips `pat` from the front of `l`; `some` of the remainder on
success. -/
def stripLeading : List Char → List Char → Option (List Char)
  | [], l => some l
  | _, [] => none
  | p :: ps, c :: cs => if p = c then stripLeading ps cs else none

/-- The `$` in multiline mode: end of input or a line terminator next. -/
def atLineEnd : List Char → Bool
  | [] => true
  | c :: _ => isLineTerm c

/-- A match of the `^---page---$` alternative starting at the current
position (the caller guarantees `^`): the token followed by a line end.
Returns the remaining input after the token. -/
def tokenMatch (l : List Char) : Option (List Char) :=
  match stripLeading pageToken l with
  | some r => if atLineEnd r then some r else none
  | none => none

theorem stripLeading_length {ps l r : List Char}
    (h : stripLeading ps l = some r) : r.length + ps.length = l.length := by
  induction ps generalizing l with
  | nil => simp [stripLeading] at h; simp [h]
  | cons p ps ih =>
    cases l with
    | nil => simp [stripLeading] at h
    | cons c cs =>
      simp only [stripLeading] at h
      split at h
      · have := ih h
        simp [List.length_cons]
        omega
      · exact absurd h (by simp)

theorem pageToken_length : pageToken.length = 10 := by decide

theorem tokenMatch_length {l r : List Char} (h : tokenMatch l = some r) :
    r.length + 10 = l.length := by
  unfold tokenMatch at h
  cases hs : stripLeading pageToken l with
  | none => rw [hs] at h; exact absurd h (by simp)
  | some r2 =>
    rw [hs] at h
    dsimp only at h
    have hlen := stripLeading_length hs
    rw [pageToken_length] at hlen
    by_cases hE : atLineEnd r2 = true
    · rw [if_pos hE] at h
      cases h
      exact hlen
    · rw [if_neg hE] at h
      exact absurd h (by simp)

/-- The scan of `normalized.split(PAGE_DELIMITER_REGEX)`: walk the input
left to right; at a line start try the `^---page---$` alternative, else
match a form feed; both cut the accumulated segment.  `atStart` records
whether the current position follows a line terminator (or is the string
start), matching `^` in multiline mode. -/
def pageSplitScan (atStart : Bool) (l : List Char) (acc : List Char) :
    List (List Char) :=
  match l with
  | [] => [acc.reverse]
  | c :: rest =>
    if c = '\x0C' then acc.reverse :: pageSplitScan false rest []
    else if hm : atStart = true ∧ (tokenMatch (c :: rest)).isSome then
      acc.reverse :: pageSplitScan false ((tokenMatch (c :: rest)).get hm.2) []
    else pageSplitScan (isLineTerm c) rest (c :: acc)
termination_by l.length
decreasing_by
  · simp
  · have h10 := tokenMatch_length (Option.some_get hm.2).symm
    simp only [List.length_cons] at h10 ⊢
    omega
  · simp

/-- JavaScript `Array.prototype.filter` with the index argument, as used
by `splitByPageDelimiters`. -/
def filterWithIndex (pred : List Char → Nat → Bool) :
    List (List Char) → Nat → List (List Char)
  | [], _ => []
  | p :: rest, i =>
    if pred p i then p :: filterWithIndex pred rest (i + 1)
    else filterWithIndex pred rest (i + 1)

/-- The filter callback of `splitByPageDelimiters`:
`index === 0` keeps the first page, later pages need
`page.trim().length > 0`. -/
def keepPage (page : List Char) (index : Nat) : Bool :=
  index == 0 || decide (0 < (jsTrim page).length)

/-- The raw `normalized.split(PAGE_DELIMITER_REGEX)` stage of
`splitByPageDelimiters`, before filtering. -/
def rawSplitPages (s : String) : List String :=
  (pageSplitScan true (normalizeNewlines s.toList) []).map String.mk

/-- The `splitByPageDelimiters` from `utils/markdownParser.ts`. -/
def splitByPageDelimiters (s : String) : List String :=
  let normalized := normalizeNewlines s.toList
  let pages := pageSplitScan true normalized []
  let filteredPages := filterWithIndex keepPage pages 0
  if 0 < filteredPages.length then filteredPages.map String.mk else [""]

/-! ## Per-page renderer (`parseMarkdownToPages`)

`markdownToHtml` delegates to the external `markdown-it` library
(`md.render`), which is not part of this repository; it enters the
embedding as an abstract `render : String → String` parameter. -/

/-- The `ParsedPage` from `types/index.ts`. -/
structure ParsedPage where
  index : Nat
  markdown : String
  html : String
deriving DecidableEq, Repr

/-- JavaScript `Array.prototype.map` with the index argument, as used by
`parseMarkdownToPages`. -/
def mapWithIndex (f : String → Nat → ParsedPage) :
    List String → Nat → List ParsedPage
  | [], _ => []
  | c :: rest, i => f c i :: mapWithIndex f rest (i + 1)

/-- The `parseMarkdownToPages` from `utils/markdownParser.ts`, with
`markdownToHtml` (= `md.render` of the external `markdown-it` library)
abstracted as `render`. -/
def parseMarkdownToPages (render : String → String) (markdown : String) :
    List ParsedPage :=
  let pageContents := splitByPageDelimiters markdown
  mapWithIndex
    (fun content index =>
      { index := index, markdown := content, html := render content })
    pageContents 0

/-! ## Helper lemmas -/

theorem keepPage_zero (p : List Char) : keepPage p 0 = true := rfl

theorem filterWithIndex_pos (L : List (List Char)) (i : Nat) (hi : 0 < i) :
    filterWithIndex keepPage L i =
      L.filter fun page => decide (0 < (jsTrim page).length) := by
  induction L generalizing i with
  | nil => rfl
  | cons p rest ih =>
    have h0 : keepPage p i = decide (0 < (jsTrim p).length) := by
      cases i with
      | zero => exact absurd hi (by simp)
      | succ n => simp [keepPage]
    simp only [filterWithIndex, h0, List.filter_cons, ih (i + 1) (by omega)]

theorem filter_map_mk (qC : List Char → Bool) (qS : String → Bool)
    (hq : ∀ l, qS (String.mk l) = qC l) (L : List (List Char)) :
    (L.filter qC).map String.mk = (L.map String.mk).filter qS := by
  induction L with
  | nil => rfl
  | cons p rest ih =>
    simp only [List.filter_cons, List.map_cons, hq]
    cases hc : qC p <;> simp [hc, ih]

theorem splitByPageDelimiters_ne_nil (t : String) :
    splitByPageDelimiters t ≠ [] := by
  simp only [splitByPageDelimiters]
  split
  · next hpos =>
    intro hEq
    have h2 : filterWithIndex keepPage
        (pageSplitScan true (normalizeNewlines t.toList) []) 0 = [] := by
      simpa using hEq
    rw [h2] at hpos
    simp at hpos
  · simp

/-- The A4 preset `{ width: 210, height: 297, margin: 20 }` is a valid
page size. -/
theorem a4_valid : (PageSize.mk 210 297 20).valid := by
  refine ⟨by norm_num, by norm_num, by norm_num, ?_⟩
  rw [min_def]
  norm_num

theorem mapWithIndex_fields (render : String → String) (L : List String)
    (i : Nat) :
    (mapWithIndex (fun content index =>
        { index := index, markdown := content, html := render content })
        L i).map (fun pg => pg.markdown) = L ∧
    (mapWithIndex (fun content index =>
        { index := index, markdown := content, html := render content })
        L i).map (fun pg => pg.html) = L.map render := by
  induction L generalizing i with
  | nil => exact ⟨rfl, rfl⟩
  | cons c rest ih =>
    obtain ⟨ih1, ih2⟩ := ih (i + 1)
    simp [mapWithIndex, ih1, ih2]

/-! ## Claims about the splitter, renderer, stylesheet and scale script -/

/-- C2, counterexample: the claim quantifies over all three `.page` rule
sets, but at the valid A4 size (210×297, margin 20) the base rule set
declares `width: 170mm` (the content width), not the full 210mm page
width. -/
theorem c2_base_rule_counterexample :
    (PageSize.mk 210 297 20).valid ∧
    (basePageRule (PageSize.mk 210 297 20)).outerWidth ≠
      some (PageSize.mk 210 297 20).width := by
  refine ⟨a4_valid, ?_⟩
  simp only [basePageRule, contentWidth, PageRuleBox.outerWidth]
  intro hEq
  have := Option.some.inj hEq
  norm_num at this

/-- C2 (amended): for every valid `PageSize`, the `@media print` and
`@media screen` `.page` rule sets give the page element an outer
border-box of exactly `width`mm by `height`mm with padding `margin`mm, so
under the global border-box sizing the content box is exactly
`(width - 2*margin)`mm by `(height - 2*margin)`mm; the base rule set
instead declares the element width as `width - margin*2` (the content
width) and no height. -/
theorem c2_page_geometry (ps : PageSize) (h : ps.valid) :
    (printPageRule ps).outerWidth = some ps.width ∧
    (printPageRule ps).outerHeight = some ps.height ∧
    (printPageRule ps).contentBoxWidth = some (ps.width - 2 * ps.margin) ∧
    (printPageRule ps).contentBoxHeight = some (ps.height - 2 * ps.margin) ∧
    (screenPageRule ps).outerWidth = some ps.width ∧
    (screenPageRule ps).outerHeight = some ps.height ∧
    (screenPageRule ps).contentBoxWidth = some (ps.width - 2 * ps.margin) ∧
    (screenPageRule ps).contentBoxHeight = some (ps.height - 2 * ps.margin) ∧
    (basePageRule ps).outerWidth = some (ps.width - ps.margin * 2) ∧
    (basePageRule ps).outerHeight = none := by
  refine ⟨rfl, rfl, ?_, ?_, rfl, rfl, ?_, ?_, rfl, rfl⟩ <;>
    simp [printPageRule, screenPageRule, PageRuleBox.contentBoxWidth,
      PageRuleBox.contentBoxHeight]

/-- Witness for `c2_page_geometry` at the valid A4 page size. -/
theorem c2_page_geometry_witness :
    (printPageRule ⟨210, 297, 20⟩).outerWidth =
      some ((⟨210, 297, 20⟩ : PageSize).width) ∧
    (printPageRule ⟨210, 297, 20⟩).contentBoxWidth =
      some ((⟨210, 297, 20⟩ : PageSize).width -
        2 * (⟨210, 297, 20⟩ : PageSize).margin) :=
  ⟨(c2_page_geometry ⟨210, 297, 20⟩ a4_valid).1,
   (c2_page_geometry ⟨210, 297, 20⟩ a4_valid).2.2.1⟩

/-- C6: the preview scale of the embedded scale script equals
`min((innerWidth - 40) / (width * 3.7795275591), 1)`; it is always ≤ 1 and
weakly monotonically increasing in the available width (so weakly
decreasing as the available width decreases). -/
theorem c6_preview_scale (w vw1 vw2 : ℚ) (hw : 0 < w) (hvw : vw1 ≤ vw2) :
    previewScale w vw1 = min ((vw1 - 40) / (w * MM_TO_PX)) 1 ∧
    previewScale w vw1 ≤ 1 ∧
    previewScale w vw1 ≤ previewScale w vw2 := by
  refine ⟨rfl, min_le_right _ _, ?_⟩
  have hc : 0 < w * MM_TO_PX := by
    have hp : (0 : ℚ) < MM_TO_PX := by norm_num [MM_TO_PX]
    exact mul_pos hw hp
  exact min_le_min ((div_le_div_iff_of_pos_right hc).mpr (by linarith)) le_rfl

/-- Witness for `c6_preview_scale`: A4 width, viewport widths 100 and
500. -/
theorem c6_preview_scale_witness :
    previewScale 210 100 = min (((100 : ℚ) - 40) / (210 * MM_TO_PX)) 1 ∧
    previewScale 210 100 ≤ 1 ∧
    previewScale 210 100 ≤ previewScale 210 500 :=
  c6_preview_scale 210 100 500 (by norm_num) (by norm_num)

/-- C3: `splitByPageDelimiters` always returns a nonempty list;
`splitByPageDelimiters "" = [""]`; the first raw segment is always kept
and each later raw segment is kept iff its `trim()` is nonempty; and
`splitByPageDelimiters "A\n---page---\n"` is the single page `["A\n"]`. -/
theorem c3_split_policy (s p : String) (rest : List String)
    (h : rawSplitPages s = p :: rest) :
    (∀ t : String, splitByPageDelimiters t ≠ []) ∧
    splitByPageDelimiters "" = [""] ∧
    splitByPageDelimiters s =
      p :: rest.filter (fun q => decide (0 < (jsTrimString q).length)) ∧
    splitByPageDelimiters "A\n---page---\n" = ["A\n"] := by
  refine ⟨splitByPageDelimiters_ne_nil, ?_, ?_, ?_⟩
  · simp [splitByPageDelimiters, pageSplitScan, normalizeNewlines,
      filterWithIndex, keepPage]
  · unfold rawSplitPages at h
    cases hscan : pageSplitScan true (normalizeNewlines s.toList) [] with
    | nil => rw [hscan] at h; simp at h
    | cons l0 L2 =>
      rw [hscan] at h
      simp only [List.map_cons] at h
      injection h with h1 h2
      have hfw : filterWithIndex keepPage (l0 :: L2) 0 =
          l0 :: L2.filter (fun page => decide (0 < (jsTrim page).length)) := by
        rw [filterWithIndex, if_pos (keepPage_zero l0),
          filterWithIndex_pos L2 1 (by omega)]
      simp only [splitByPageDelimiters]
      rw [hscan, hfw, if_pos (by simp)]
      simp only [List.map_cons]
      rw [filter_map_mk (fun page => decide (0 < (jsTrim page).length))
        (fun q => decide (0 < (jsTrimString q).length)) (fun l => rfl) L2]
      rw [h1, h2]
  · simp [splitByPageDelimiters, pageSplitScan, normalizeNewlines, tokenMatch,
      stripLeading, pageToken, atLineEnd, isLineTerm, filterWithIndex,
      keepPage, jsTrim, isJsWs, List.dropWhile]

/-- Witness for `c3_split_policy` at `"A\n---page---\n"`, whose raw split
is `["A\n", "\n"]`: the kept pages are the unconditionally-kept first
segment and the later segments with nonempty `trim()` (here none). -/
theorem c3_split_policy_witness :
    splitByPageDelimiters "A\n---page---\n" =
      "A\n" :: (["\n"] : List String).filter
        (fun q => decide (0 < (jsTrimString q).length)) :=
  (c3_split_policy "A\n---page---\n" "A\n" ["\n"]
    (by simp [rawSplitPages, pageSplitScan, normalizeNewlines, tokenMatch,
      stripLeading, pageToken, atLineEnd, isLineTerm])).2.2.1

/-- C5: the line token `---page---` and the form feed are interchangeable
delimiters: `split("A\fB")` and `split("A\n---page---\nB")` both yield
exactly two pages with equal trimmed contents. -/
theorem c5_delimiters_interchangeable :
    (splitByPageDelimiters "A\x0CB").length = 2 ∧
    (splitByPageDelimiters "A\n---page---\nB").length = 2 ∧
    (splitByPageDelimiters "A\x0CB").map jsTrimString =
      (splitByPageDelimiters "A\n---page---\nB").map jsTrimString := by
  refine ⟨?_, ?_, ?_⟩ <;>
    simp [splitByPageDelimiters, pageSplitScan, normalizeNewlines, tokenMatch,
      stripLeading, pageToken, atLineEnd, isLineTerm, filterWithIndex,
      keepPage, jsTrim, jsTrimString, isJsWs, List.dropWhile]

/-- C8: rendering is page-local: the `html` field of each parsed page is
exactly the renderer applied to that page's own `markdown` field, for
every renderer and every input text. -/
theorem c8_page_local_rendering (render : String → String) (s : String) :
    (parseMarkdownToPages render s).map (fun pg => pg.html) =
      ((parseMarkdownToPages render s).map (fun pg => pg.markdown)).map
        render := by
  simp only [parseMarkdownToPages]
  obtain ⟨h1, h2⟩ := mapWithIndex_fields render (splitByPageDelimiters s) 0
  rw [h1, h2]

/-- C10: page-delimiter recognition ignores markdown structure: the
`markdown` fields of `parseMarkdownToPages` are exactly
`splitByPageDelimiters` of the raw text (splitting happens before any
rendering), so a `---page---` line inside a fenced code block still
splits; the fenced-code document yields two pages. -/
theorem c10_delimiters_ignore_markdown (render : String → String)
    (s : String) :
    (parseMarkdownToPages render s).map (fun pg => pg.markdown) =
      splitByPageDelimiters s ∧
    splitByPageDelimiters "```\n---page---\n```" = ["```\n", "\n```"] ∧
    (parseMarkdownToPages render "```\n---page---\n```").map
      (fun pg => pg.markdown) = ["```\n", "\n```"] := by
  have hgen : ∀ t : String,
      (parseMarkdownToPages render t).map (fun pg => pg.markdown) =
        splitByPageDelimiters t := by
    intro t
    simp only [parseMarkdownToPages]
    exact (mapWithIndex_fields render (splitByPageDelimiters t) 0).1
  have hconc : splitByPageDelimiters "```\n---page---\n```" =
      ["```\n", "\n```"] := by
    simp [splitByPageDelimiters, pageSplitScan, normalizeNewlines, tokenMatch,
      stripLeading, pageToken, atLineEnd, isLineTerm, filterWithIndex,
      keepPage, jsTrim, isJsWs, List.dropWhile]
  exact ⟨hgen s, hconc, by rw [hgen, hconc]⟩

/-! ## Export pipeline (`usePdfExport` in `hooks/usePdfExport.ts`)

`exportPdf` reads the iframe DOM, rasterizes each `.page` element via
`html2canvas` (`scale: 2`, white background), assembles a `jsPDF`
document, invokes the optional `onExport` callback, and manages the
`isExporting`/`error` hook state.  The browser environment is embedded as
an explicit record: whether `iframe?.contentWindow?.document?.body` is
reachable, the outcome of the dynamic imports, the list of `.page`
elements found, the outcome of each element's rasterization (a data URL
or a thrown error message), and the outcome of the caller-supplied
callback.  Thrown errors are carried as their `message` strings. -/

/-- jsPDF orientation, derived from `width > height` in `exportPdf`. -/
inductive PdfOrientation where
  | portrait
  | landscape
deriving DecidableEq, Repr

/-- One `pdf.addImage(imgData, 'PNG', x, y, w, h)` call recorded on an
output page. -/
structure PlacedImage where
  data : String
  fmt : String
  x : ℚ
  y : ℚ
  w : ℚ
  h : ℚ
deriving DecidableEq, Repr

/-- One page of the assembled jsPDF document: its `[width, height]` format
and the images placed on it. -/
structure PdfPage where
  format : ℚ × ℚ
  images : List PlacedImage
deriving DecidableEq, Repr

/-- The assembled jsPDF document.  `pages` is in creation order; images
are always added to the most recently created page (jsPDF's current
page). -/
structure Pdf where
  orientation : PdfOrientation
  unit : String
  pages : List PdfPage
deriving DecidableEq, Repr

/-- The `new jsPDF({orientation, unit: 'mm', format: [w, h]})`: a document
with one empty page of the given format. -/
def mkJsPDF (o : PdfOrientation) (w h : ℚ) : Pdf :=
  { orientation := o, unit := "mm", pages := [{ format := (w, h), images := [] }] }

/-- The `pdf.addPage([w, h])`: appends a fresh page, which becomes current. -/
def Pdf.addPage (pdf : Pdf) (w h : ℚ) : Pdf :=
  { pdf with pages := pdf.pages ++ [{ format := (w, h), images := [] }] }

/-- Adds an image to the last (current) page of a page list. -/
def addImageToLast (ps : List PdfPage) (img : PlacedImage) : List PdfPage :=
  match ps with
  | [] => []
  | [pg] => [{ pg with images := pg.images ++ [img] }]
  | pg :: rest => pg :: addImageToLast rest img

/-- The `pdf.addImage(data, fmt, x, y, w, h)` on the current page. -/
def Pdf.addImage (pdf : Pdf) (data fmt : String) (x y w h : ℚ) : Pdf :=
  { pdf with pages := addImageToLast pdf.pages { data := data, fmt := fmt, x := x, y := y, w := w, h := h } }

/-- The browser-side environment one `exportPdf()` invocation observes.
`pages` holds the `.page` elements found by `querySelectorAll` (as abstract
identifiers in document order); `capture` is the result of
`html2canvas(page).toDataURL('image/png')` for each element — `Except.ok`
a data URL, or `Except.error` the thrown error's message; `onExport` is
`none` when no callback was supplied, otherwise the callback's outcome. -/
structure ExportEnv where
  iframeAccessible : Bool
  importError : Option String
  pages : List Nat
  capture : Nat → Except String String
  onExport : Option (Except String Unit)

/-- The `PdfExportOptions` from `usePdfExport.ts`. -/
structure ExportOptions where
  filename : Option String
  pageSize : PageSize

/-- The `usePdfExport` hook state: `isExporting` and `error`. -/
structure HookState where
  isExporting : Bool
  error : Option String
deriving DecidableEq, Repr

/-- The per-page loop of `exportPdf`: for each page element in order,
capture it, `addPage` for every index `i > 0`, and add the capture as a
full-bleed `PNG` at `(0, 0)` with size `w × h` mm.  A capture failure
aborts the loop with the thrown message. -/
def renderPages (capture : Nat → Except String String) (w h : ℚ) :
    List Nat → Nat → Pdf → Except String Pdf
  | [], _, pdf => .ok pdf
  | p :: rest, i, pdf =>
    match capture p with
    | .error m => .error m
    | .ok img =>
      renderPages capture w h rest (i + 1)
        ((if 0 < i then pdf.addPage w h else pdf).addImage img "PNG" 0 0 w h)

/-- The `if (onExport) await onExport(blob, filename)` step: a supplied
callback that throws turns the pipeline's result into that thrown error;
otherwise the blob passes through. -/
def callbackStep (onExport : Option (Except String Unit)) (pdf : Pdf) :
    Except String Pdf :=
  match onExport with
  | some (.error m) => .error m
  | _ => .ok pdf

/-- The body of the `try` block of `exportPdf`: dynamic imports, the
no-pages check, jsPDF construction (`orientation: width > height ?
'landscape' : 'portrait'`, `format: [width, height]`), the capture loop,
and the `onExport` callback.  `Except.error` carries the thrown message
reaching the `catch`. -/
def runExport (env : ExportEnv) (opts : ExportOptions) : Except String Pdf :=
  match env.importError with
  | some m => .error m
  | none =>
    if env.pages.isEmpty then .error "No pages found in document"
    else
      match renderPages env.capture opts.pageSize.width opts.pageSize.height
          env.pages 0
          (mkJsPDF
            (if opts.pageSize.width > opts.pageSize.height then .landscape
             else .portrait)
            opts.pageSize.width opts.pageSize.height) with
      | .error m => .error m
      | .ok pdf => callbackStep env.onExport pdf

/-- The `exportPdf` from `usePdfExport.ts`: the early inaccessible-iframe
return (which sets `error` but leaves `isExporting` untouched), and
otherwise the `try`/`catch` around `runExport`; on success the blob is
returned with `isExporting=false` and `error` cleared, on any thrown
error `null` is returned with `error` set to the message and
`isExporting=false`. -/
def exportPdf (env : ExportEnv) (opts : ExportOptions) (s : HookState) :
    Option Pdf × HookState :=
  if env.iframeAccessible then
    match runExport env opts with
    | .ok pdf => (some pdf, { isExporting := false, error := none })
    | .error m => (none, { isExporting := false, error := some m })
  else (none, { s with error := some "Cannot access iframe content" })

/-- The data URL a successful capture produced (used to state what the
assembled PDF contains). -/
def okValue : Except String String → String
  | .ok v => v
  | .error _ => ""

/-- The output page `exportPdf` builds for the source page element `p`:
the `[w, h]` format and a single full-bleed PNG of `p`'s capture at
`(0, 0)`. -/
def expectedPage (capture : Nat → Except String String) (w h : ℚ)
    (p : Nat) : PdfPage :=
  { format := (w, h)
    images := [{ data := okValue (capture p), fmt := "PNG",
                 x := 0, y := 0, w := w, h := h }] }

/-! ## Export pipeline lemmas -/

theorem callbackStep_ok (o : Option (Except String Unit)) (pdf : Pdf)
    (h : ∀ m, o ≠ some (Except.error m)) : callbackStep o pdf = .ok pdf := by
  cases o with
  | none => rfl
  | some r =>
    cases r with
    | ok u => rfl
    | error m => exact absurd rfl (h m)

theorem addImageToLast_append (l : List PdfPage) (pg : PdfPage)
    (img : PlacedImage) :
    addImageToLast (l ++ [pg]) img =
      l ++ [{ pg with images := pg.images ++ [img] }] := by
  induction l with
  | nil => rfl
  | cons q rest ih =>
    cases rest with
    | nil => rfl
    | cons r rs =>
      simp only [List.cons_append] at ih ⊢
      rw [show addImageToLast (q :: r :: (rs ++ [pg])) img =
        q :: addImageToLast (r :: (rs ++ [pg])) img from rfl]
      rw [ih]

theorem renderPages_ok (capture : Nat → Except String String) (w h : ℚ)
    (l : List Nat) :
    ∀ (i : Nat) (pdf : Pdf), 0 < i →
      (∀ p ∈ l, ∃ v, capture p = Except.ok v) →
      renderPages capture w h l i pdf =
        .ok { orientation := pdf.orientation, unit := pdf.unit,
              pages := pdf.pages ++ l.map (expectedPage capture w h) } := by
  induction l with
  | nil => intro i pdf hi hcap; simp [renderPages]
  | cons p rest ih =>
    intro i pdf hi hcap
    obtain ⟨v, hv⟩ := hcap p (by simp)
    rw [renderPages, hv]
    dsimp only
    rw [if_pos hi,
      ih (i + 1) _ (by omega) (fun q hq => hcap q (by simp [hq]))]
    congr 1
    simp only [Pdf.addPage, Pdf.addImage, addImageToLast_append]
    simp [expectedPage, okValue, hv]

theorem renderPages_error (capture : Nat → Except String String) (w h : ℚ)
    (l : List Nat) :
    ∀ (i : Nat) (pdf : Pdf),
      (∃ p ∈ l, ∃ m, capture p = Except.error m) →
      ∃ m2, renderPages capture w h l i pdf = .error m2 := by
  induction l with
  | nil => intro i pdf hfail; obtain ⟨p, hp, _⟩ := hfail; simp at hp
  | cons q rest ih =>
    intro i pdf hfail
    cases hq : capture q with
    | error m => exact ⟨m, by rw [renderPages, hq]⟩
    | ok v =>
      obtain ⟨p, hpmem, m, hpe⟩ := hfail
      rcases List.mem_cons.mp hpmem with hpq | hpr
      · rw [hpq, hq] at hpe; exact absurd hpe (by simp)
      · rw [renderPages, hq]
        exact ih (i + 1) _ ⟨p, hpr, m, hpe⟩

theorem exportPdf_inaccessible (env : ExportEnv) (opts : ExportOptions)
    (s : HookState) (h : env.iframeAccessible = false) :
    exportPdf env opts s =
      (none, { s with error := some "Cannot access iframe content" }) := by
  simp [exportPdf, h]

theorem exportPdf_runError (env : ExportEnv) (opts : ExportOptions)
    (s : HookState) (m : String) (hacc : env.iframeAccessible = true)
    (hm : runExport env opts = .error m) :
    exportPdf env opts s = (none, { isExporting := false, error := some m }) := by
  simp [exportPdf, hacc, hm]

theorem runExport_noPages (env : ExportEnv) (opts : ExportOptions)
    (himp : env.importError = none) (h : env.pages = []) :
    runExport env opts = .error "No pages found in document" := by
  simp [runExport, himp, h]

theorem runExport_error_of_fail (env : ExportEnv) (opts : ExportOptions)
    (hfail : env.pages = [] ∨
      (∃ p ∈ env.pages, ∃ m, env.capture p = Except.error m) ∨
      (∃ m, env.onExport = some (Except.error m))) :
    ∃ m2, runExport env opts = .error m2 := by
  cases himp : env.importError with
  | some m => exact ⟨m, by simp [runExport, himp]⟩
  | none =>
    rcases hfail with hpn | hcapf | hcbf
    · exact ⟨_, runExport_noPages env opts himp hpn⟩
    · cases hpages : env.pages with
      | nil =>
        obtain ⟨p, hp, _⟩ := hcapf
        rw [hpages] at hp
        simp at hp
      | cons q rest =>
        rw [hpages] at hcapf
        obtain ⟨m2, hr⟩ := renderPages_error env.capture
          opts.pageSize.width opts.pageSize.height (q :: rest) 0
          (mkJsPDF
            (if opts.pageSize.width > opts.pageSize.height then .landscape
             else .portrait)
            opts.pageSize.width opts.pageSize.height) hcapf
        refine ⟨m2, ?_⟩
        simp only [runExport, himp, hpages, List.isEmpty_cons,
          Bool.false_eq_true, if_false, hr]
    · cases hpages : env.pages with
      | nil => exact ⟨_, runExport_noPages env opts himp hpages⟩
      | cons q rest =>
        obtain ⟨m, hcb⟩ := hcbf
        simp only [runExport, himp, hpages, List.isEmpty_cons,
          Bool.false_eq_true, if_false]
        cases hr : renderPages env.capture opts.pageSize.width
            opts.pageSize.height (q :: rest) 0
            (mkJsPDF
              (if opts.pageSize.width > opts.pageSize.height then .landscape
               else .portrait)
              opts.pageSize.width opts.pageSize.height) with
        | error m2 => exact ⟨m2, rfl⟩
        | ok pdf => exact ⟨m, by simp [callbackStep, hcb]⟩

/-! ## Claims about the export pipeline -/

/-- C4: with an accessible iframe, successful dynamic imports, N ≥ 1 page
elements, all captures succeeding and no callback failure, `exportPdf`
returns a PDF whose orientation is landscape exactly when width > height,
with exactly one output page per source page element in source order, each
of format `[width, height]` mm carrying that element's capture as a single
full-bleed PNG at `(0, 0)` spanning width × height mm. -/
theorem c4_export_page_correspondence (env : ExportEnv)
    (opts : ExportOptions) (s : HookState)
    (hacc : env.iframeAccessible = true)
    (himp : env.importError = none)
    (hne : env.pages ≠ [])
    (hcap : ∀ p ∈ env.pages, ∃ v, env.capture p = Except.ok v)
    (hcb : ∀ m, env.onExport ≠ some (Except.error m)) :
    exportPdf env opts s =
      (some { orientation :=
                if opts.pageSize.width > opts.pageSize.height then
                  PdfOrientation.landscape
                else PdfOrientation.portrait,
              unit := "mm",
              pages := env.pages.map (expectedPage env.capture
                opts.pageSize.width opts.pageSize.height) },
       { isExporting := false, error := none }) ∧
    (exportPdf env opts s).1.map (fun pdf => pdf.pages.length) =
      some env.pages.length := by
  cases hpages : env.pages with
  | nil => exact absurd hpages hne
  | cons p0 rest =>
    have hrun : runExport env opts =
        .ok { orientation :=
                if opts.pageSize.width > opts.pageSize.height then
                  PdfOrientation.landscape
                else PdfOrientation.portrait,
              unit := "mm",
              pages := (p0 :: rest).map (expectedPage env.capture
                opts.pageSize.width opts.pageSize.height) } := by
      simp only [runExport, himp, hpages, List.isEmpty_cons,
        Bool.false_eq_true, if_false]
      obtain ⟨v0, hv0⟩ := hcap p0 (by rw [hpages]; simp)
      rw [renderPages, hv0]
      dsimp only
      rw [if_neg (by omega),
        renderPages_ok env.capture _ _ rest 1 _ (by omega)
          (fun q hq => hcap q (by rw [hpages]; simp [hq]))]
      dsimp only
      rw [callbackStep_ok env.onExport _ hcb]
      congr 1
      simp [mkJsPDF, Pdf.addImage, addImageToLast, expectedPage, okValue, hv0]
    have hfull : exportPdf env opts s =
        (some { orientation :=
                  if opts.pageSize.width > opts.pageSize.height then
                    PdfOrientation.landscape
                  else PdfOrientation.portrait,
                unit := "mm",
                pages := (p0 :: rest).map (expectedPage env.capture
                  opts.pageSize.width opts.pageSize.height) },
         { isExporting := false, error := none }) := by
      simp [exportPdf, hacc, hrun]
    exact ⟨hfull, by rw [hfull]; simp⟩

/-- The environment for the `c4_export_page_correspondence` witness: two
page elements, all captures succeed, no callback. -/
def c4Env : ExportEnv :=
  { iframeAccessible := true, importError := none, pages := [0, 1],
    capture := fun _ => Except.ok "img", onExport := none }

/-- The options for the `c4_export_page_correspondence` witness. -/
def c4Opts : ExportOptions :=
  { filename := none, pageSize := { width := 2, height := 1, margin := 0 } }

/-- Witness for `c4_export_page_correspondence`: a concrete two-page
export. -/
theorem c4_export_page_correspondence_witness :
    exportPdf c4Env c4Opts ⟨false, none⟩ =
      (some { orientation :=
                if c4Opts.pageSize.width > c4Opts.pageSize.height then
                  PdfOrientation.landscape
                else PdfOrientation.portrait,
              unit := "mm",
              pages := c4Env.pages.map (expectedPage c4Env.capture
                c4Opts.pageSize.width c4Opts.pageSize.height) },
       { isExporting := false, error := none }) ∧
    (exportPdf c4Env c4Opts ⟨false, none⟩).1.map
      (fun pdf => pdf.pages.length) = some c4Env.pages.length :=
  c4_export_page_correspondence c4Env c4Opts ⟨false, none⟩ rfl rfl
    (by simp [c4Env]) (fun p _ => ⟨"img", rfl⟩) (fun m => by simp [c4Env])

/-- C7: every failure mode — inaccessible iframe, zero page elements, a
per-page rasterization failure, or a callback failure — makes `exportPdf`
return `null` with a non-null error message and `isExporting = false`
(starting from a quiescent hook state); the zero-pages case reports the
distinct message `"No pages found in document"`. -/
theorem c7_export_failure_state (env : ExportEnv) (opts : ExportOptions)
    (s : HookState) (hq : s.isExporting = false)
    (hfail : env.iframeAccessible = false ∨ env.pages = [] ∨
      (∃ p ∈ env.pages, ∃ m, env.capture p = Except.error m) ∨
      (∃ m, env.onExport = some (Except.error m))) :
    (exportPdf env opts s).1 = none ∧
    (exportPdf env opts s).2.error ≠ none ∧
    (exportPdf env opts s).2.isExporting = false ∧
    (env.iframeAccessible = true → env.importError = none →
      env.pages = [] →
      (exportPdf env opts s).2.error = some "No pages found in document") := by
  cases hacc : env.iframeAccessible with
  | false =>
    rw [exportPdf_inaccessible env opts s hacc]
    refine ⟨rfl, by simp, by simp [hq], ?_⟩
    intro h1 _ _
    simp at h1
  | true =>
    have hfail2 : env.pages = [] ∨
        (∃ p ∈ env.pages, ∃ m, env.capture p = Except.error m) ∨
        (∃ m, env.onExport = some (Except.error m)) := by
      rcases hfail with h | h | h | h
      · rw [hacc] at h; exact absurd h (by simp)
      · exact Or.inl h
      · exact Or.inr (Or.inl h)
      · exact Or.inr (Or.inr h)
    obtain ⟨m2, hrun⟩ := runExport_error_of_fail env opts hfail2
    rw [exportPdf_runError env opts s m2 hacc hrun]
    refine ⟨rfl, by simp, rfl, ?_⟩
    intro _ himp hpn
    have h3 := runExport_noPages env opts himp hpn
    rw [hrun] at h3
    injection h3 with h4
    simp [h4]

/-- The environment for the `c7_export_failure_state` witness: an
accessible iframe in which no `.page` elements are found. -/
def c7Env : ExportEnv :=
  { iframeAccessible := true, importError := none, pages := [],
    capture := fun _ => Except.ok "img", onExport := none }

/-- The options for the `c7_export_failure_state` witness. -/
def c7Opts : ExportOptions :=
  { filename := none, pageSize := { width := 2, height := 1, margin := 0 } }

/-- Witness for `c7_export_failure_state`: the zero-pages failure returns
`null`, reports `"No pages found in document"`, and clears
`isExporting`. -/
theorem c7_export_failure_state_witness :
    (exportPdf c7Env c7Opts ⟨false, none⟩).1 = none ∧
    (exportPdf c7Env c7Opts ⟨false, none⟩).2.isExporting = false ∧
    (exportPdf c7Env c7Opts ⟨false, none⟩).2.error =
      some "No pages found in document" := by
  have h := c7_export_failure_state c7Env c7Opts ⟨false, none⟩ rfl
    (Or.inr (Or.inl rfl))
  exact ⟨h.1, h.2.2.1, h.2.2.2 rfl rfl rfl⟩

/-- The environment for the C1 theorems: one page element, successful
capture, and a callback that throws `"upload failed"`. -/
def c1Env : ExportEnv :=
  { iframeAccessible := true, importError := none, pages := [0],
    capture := fun _ => Except.ok "imgdata",
    onExport := some (Except.error "upload failed") }

/-- The options for the C1 theorems. -/
def c1Opts : ExportOptions :=
  { filename := none, pageSize := { width := 2, height := 1, margin := 0 } }

/-- C1, counterexample: with an accessible iframe, one page element found,
and a successful capture (so the PDF blob is produced inside the `try`
block), a throwing `onExport` callback makes `exportPdf` return `null` —
not the blob, contrary to the claim. -/
theorem c1_callback_counterexample :
    c1Env.iframeAccessible = true ∧
    c1Env.pages ≠ [] ∧
    (∀ p ∈ c1Env.pages, ∃ v, c1Env.capture p = Except.ok v) ∧
    (exportPdf c1Env c1Opts ⟨false, none⟩).1 = none := by
  refine ⟨rfl, by simp [c1Env], fun p _ => ⟨"imgdata", rfl⟩, ?_⟩
  obtain ⟨m, hrun⟩ := runExport_error_of_fail c1Env c1Opts
    (Or.inr (Or.inr ⟨"upload failed", rfl⟩))
  rw [exportPdf_runError c1Env c1Opts ⟨false, none⟩ m rfl hrun]

/-- C1 (amended): when every capture succeeds but the caller-supplied
`onExport` callback throws, `exportPdf` treats the callback error exactly
like a capture failure: it returns `null` (not the blob) with the
callback's error message in the hook state; the blob is returned only
when the callback — if supplied — also succeeds. -/
theorem c1_callback_throw_returns_null (env : ExportEnv)
    (opts : ExportOptions) (s : HookState) (m : String)
    (hacc : env.iframeAccessible = true)
    (himp : env.importError = none)
    (hne : env.pages ≠ [])
    (hcap : ∀ p ∈ env.pages, ∃ v, env.capture p = Except.ok v)
    (hcb : env.onExport = some (Except.error m)) :
    exportPdf env opts s =
      (none, { isExporting := false, error := some m }) := by
  cases hpages : env.pages with
  | nil => exact absurd hpages hne
  | cons p0 rest =>
    have hrun : runExport env opts = .error m := by
      simp only [runExport, himp, hpages, List.isEmpty_cons,
        Bool.false_eq_true, if_false]
      obtain ⟨v0, hv0⟩ := hcap p0 (by rw [hpages]; simp)
      rw [renderPages, hv0]
      dsimp only
      rw [if_neg (by omega),
        renderPages_ok env.capture _ _ rest 1 _ (by omega)
          (fun q hq => hcap q (by rw [hpages]; simp [hq]))]
      dsimp only
      simp [callbackStep, hcb]
    exact exportPdf_runError env opts s m hacc hrun

/-- Witness for `c1_callback_throw_returns_null` at the concrete
environment of the counterexample. -/
theorem c1_callback_throw_witness :
    exportPdf c1Env c1Opts ⟨false, none⟩ =
      (none, { isExporting := false, error := some "upload failed" }) :=
  c1_callback_throw_returns_null c1Env c1Opts ⟨false, none⟩ "upload failed"
    rfl rfl (by simp [c1Env]) (fun p _ => ⟨"imgdata", rfl⟩) rfl
